import Mathlib

/-!
Verification of the state-checkpoint codec and the broker sink writer of the
`denormalized` core, against a shallow embedding of
`crates/core/src/accumulators/serializable_accumulator.rs` and
`crates/core/src/datasource/kafka/topic_writer.rs`.

Rust `Result` values that the code can also abandon by panicking
(`unwrap`/`expect`) are embedded as an `Outcome` with an explicit `panic`
constructor, so that panics are observable facts of the model.
-/

namespace Denormalized

/-- Arrow logical datatypes used by the accumulator state (the repository
only exercises Int32, Utf8 and lists of these). -/
inductive DataType where
  | int32 : DataType
  | utf8 : DataType
  | list : DataType → DataType
  deriving DecidableEq, Repr

/-- Typed scalar values of the engine (`datafusion_common::ScalarValue`
restricted to the kinds the checkpoint codec touches). A `list` scalar
carries its element datatype, mirroring a one-row Arrow `ListArray`:
`data_type` recovers the element type, `values` the child elements. -/
inductive ScalarValue where
  | int32 : Option Int → ScalarValue
  | utf8 : Option String → ScalarValue
  | list : DataType → List ScalarValue → ScalarValue
  deriving Repr

/-- The Rust error type surfaced by the embedded functions
(`DataFusionError::Internal` / `DataFusionError::NotImplemented`). -/
inductive DataFusionError where
  | internalErr : String → DataFusionError
  | notImplemented : String → DataFusionError
  deriving DecidableEq, Repr

/-- Outcome of running a fallible Rust function: a returned `Ok`, a returned
`Err`, or a panic (`unwrap`/`expect` on a failed operation). -/
inductive Outcome (α : Type) where
  | ok : α → Outcome α
  | err : DataFusionError → Outcome α
  | panic : String → Outcome α
  deriving DecidableEq, Repr

/-! ## The self-describing value encoding

Modelled from the spec: the module `crates/core/src/accumulators/serialize.rs`
(type `SerializableScalarValue` and its serde encoding) is not under `src/`.
Per spec §3/§6 it is a tagged union capturing a value's logical type and its
content (including explicit null), rendered as UTF-8 text records with an
explicit type discriminant, escaping embedded separator characters, with the
invariant `decode(encode(v)) = v`. We realise it as a concrete prefix
encoding over characters together with a total parser. -/

/-- Decimal digits of a natural number rendered as characters
(least-significant first; the empty list denotes zero). -/
def encodeNat (n : Nat) : List Char :=
  (Nat.digits 10 n).map Nat.digitChar

/-- Signed decimal rendering of an integer. -/
def encodeInt : Int → List Char
  | Int.ofNat n => encodeNat n
  | Int.negSucc n => '-' :: encodeNat (n + 1)

/-- Escape the record separator and the escape character inside text. -/
def escapeChars : List Char → List Char
  | [] => []
  | c :: cs =>
      if c = ';' ∨ c = '\\' then '\\' :: c :: escapeChars cs
      else c :: escapeChars cs

/-- Type discriminant of the tagged encoding. -/
def encodeType : DataType → List Char
  | DataType.int32 => ['i']
  | DataType.utf8 => ['u']
  | DataType.list t => 'l' :: encodeType t

mutual

/-- Tagged, self-describing rendering of one scalar value. -/
def encodeValue : ScalarValue → List Char
  | ScalarValue.int32 none => ['I', 'n']
  | ScalarValue.int32 (some v) => 'I' :: 'v' :: (encodeInt v ++ [';'])
  | ScalarValue.utf8 none => ['U', 'n']
  | ScalarValue.utf8 (some s) => 'U' :: 'v' :: (escapeChars s.data ++ [';'])
  | ScalarValue.list t vs => 'L' :: (encodeType t ++ '[' :: (encodeValueList vs ++ [']']))

/-- Rendering of a sequence of scalar values, concatenated. -/
def encodeValueList : List ScalarValue → List Char
  | [] => []
  | v :: vs => encodeValue v ++ encodeValueList vs

end

/-- Value of a decimal digit character, `none` on any other character. -/
def decDigit (c : Char) : Option Nat :=
  if '0' ≤ c ∧ c ≤ '9' then some (c.toNat - '0'.toNat) else none

/-- Greedily read decimal digit characters from the front of the input. -/
def readDigits : List Char → List Nat × List Char
  | [] => ([], [])
  | c :: cs =>
      match decDigit c with
      | some d =>
          let p := readDigits cs
          (d :: p.1, p.2)
      | none => ([], c :: cs)

/-- Parse a signed decimal integer from the front of the input. -/
def parseInt (input : List Char) : Int × List Char :=
  match input with
  | [] => ((Nat.ofDigits 10 [] : Nat), [])
  | c :: r =>
      if c = '-' then
        let p := readDigits r
        (-((Nat.ofDigits 10 p.1 : Nat) : Int), p.2)
      else
        let p := readDigits (c :: r)
        ((Nat.ofDigits 10 p.1 : Nat), p.2)

/-- Parse a type discriminant. -/
def parseType : List Char → Except String (DataType × List Char)
  | 'i' :: r => Except.ok (DataType.int32, r)
  | 'u' :: r => Except.ok (DataType.utf8, r)
  | 'l' :: r =>
      match parseType r with
      | Except.ok (t, r') => Except.ok (DataType.list t, r')
      | Except.error e => Except.error e
  | _ => Except.error "invalid type tag"

/-- Read escaped text up to its unescaped terminating separator. -/
def parseText : List Char → Except String (List Char × List Char)
  | [] => Except.error "unterminated text"
  | c :: cs =>
      if c = '\\' then
        match cs with
        | [] => Except.error "dangling escape"
        | d :: ds =>
            match parseText ds with
            | Except.ok (s, r) => Except.ok (d :: s, r)
            | Except.error e => Except.error e
      else if c = ';' then Except.ok ([], cs)
      else
        match parseText cs with
        | Except.ok (s, r) => Except.ok (c :: s, r)
        | Except.error e => Except.error e

mutual

/-- Fuel-indexed parser for one tagged scalar value. -/
def parseValue : Nat → List Char → Except String (ScalarValue × List Char)
  | 0, _ => Except.error "out of fuel"
  | fuel + 1, input =>
      match input with
      | 'I' :: 'n' :: r => Except.ok (ScalarValue.int32 none, r)
      | 'I' :: 'v' :: r =>
          let p := parseInt r
          match p.2 with
          | ';' :: r' => Except.ok (ScalarValue.int32 (some p.1), r')
          | _ => Except.error "missing integer terminator"
      | 'U' :: 'n' :: r => Except.ok (ScalarValue.utf8 none, r)
      | 'U' :: 'v' :: r =>
          match parseText r with
          | Except.ok (s, r') => Except.ok (ScalarValue.utf8 (some (String.mk s)), r')
          | Except.error e => Except.error e
      | 'L' :: r =>
          match parseType r with
          | Except.ok (t, r') =>
              match r' with
              | '[' :: r'' =>
                  match parseValueList fuel r'' with
                  | Except.ok (vs, r3) => Except.ok (ScalarValue.list t vs, r3)
                  | Except.error e => Except.error e
              | _ => Except.error "missing list opener"
          | Except.error e => Except.error e
      | _ => Except.error "invalid value tag"

/-- Fuel-indexed parser for a `]`-terminated sequence of tagged values. -/
def parseValueList : Nat → List Char → Except String (List ScalarValue × List Char)
  | 0, _ => Except.error "out of fuel"
  | _ + 1, [] => Except.error "unterminated value sequence"
  | fuel + 1, c :: r =>
      if c = ']' then Except.ok ([], r)
      else
        match parseValue fuel (c :: r) with
        | Except.ok (v, r') =>
            match parseValueList fuel r' with
            | Except.ok (vs, r'') => Except.ok (v :: vs, r'')
            | Except.error e => Except.error e
        | Except.error e => Except.error e

end

mutual

/-- Parser fuel sufficient for one encoded value. -/
def fuelValue : ScalarValue → Nat
  | ScalarValue.int32 _ => 1
  | ScalarValue.utf8 _ => 1
  | ScalarValue.list _ vs => fuelList vs + 1

/-- Parser fuel sufficient for an encoded value sequence. -/
def fuelList : List ScalarValue → Nat
  | [] => 1
  | v :: vs => max (fuelValue v) (fuelList vs) + 1

end

/-- Render a whole state sequence as a checkpoint blob
(the serde rendering of `SerializableArrayAggState`, modelled from the spec:
"a sequence of tagged type/value records", UTF-8 text). -/
def encodeState (l : List ScalarValue) : String :=
  String.mk ('[' :: (encodeValueList l ++ [']']))

/-- Parse a checkpoint blob back into a state sequence
(`serde_json::from_str::<SerializableArrayAggState>` modelled from the spec:
a parse that fails on any string that is not a well-formed blob). -/
def decodeState (s : String) : Except String (List ScalarValue) :=
  match s.data with
  | '[' :: r =>
      match parseValueList (r.length + 1) r with
      | Except.ok (vs, []) => Except.ok vs
      | Except.ok _ => Except.error "trailing characters after state"
      | Except.error e => Except.error e
  | _ => Except.error "expected a state record"

/-- Decode one self-describing value rendering (value-level `decode`). -/
def decodeValue (s : String) : Except String ScalarValue :=
  match parseValue (s.data.length + 1) s.data with
  | Except.ok (v, []) => Except.ok v
  | Except.ok _ => Except.error "trailing characters after value"
  | Except.error e => Except.error e

/-! ## The array-agg accumulator

Modelled from the spec: `ArrayAggAccumulator` lives in the external
`datafusion` crate, not under `src/`. Spec §3 ("for a collect-all-seen-values
operator, state is a single typed list-of-values entry; empty Aggregation
State is a defined error condition") and §6 (operator contract:
state extraction, partial-merge of state arrays, finalize) fix its
behaviour: it accumulates the arrays it is fed, its state is the single
typed list of everything collected (the empty sequence when nothing was
ever collected), partial-merge appends the given state arrays, and
finalize returns the typed collection. -/

/-- The collect-all-values aggregation operator: the element datatype it was
created for, and the arrays of elements it has accumulated, in order. -/
structure ArrayAggAccumulator where
  datatype : DataType
  values : List (List ScalarValue)
  deriving Repr

/-- `ArrayAggAccumulator::try_new`: a fresh operator for a datatype. -/
def ArrayAggAccumulator.try_new (dt : DataType) : ArrayAggAccumulator :=
  { datatype := dt, values := [] }

/-- `Accumulator::update_batch`: append one input array of elements. -/
def ArrayAggAccumulator.update_batch (acc : ArrayAggAccumulator)
    (arr : List ScalarValue) : ArrayAggAccumulator :=
  { acc with values := acc.values ++ [arr] }

/-- `Accumulator::merge_batch`: partial-merge, appending every given state
array's elements to the collection. -/
def ArrayAggAccumulator.merge_batch (acc : ArrayAggAccumulator)
    (arrays : List (List ScalarValue)) : ArrayAggAccumulator :=
  { acc with values := acc.values ++ arrays }

/-- `Accumulator::state`: the single typed list-of-values entry holding
everything collected; the empty sequence for a never-updated operator. -/
def ArrayAggAccumulator.state (acc : ArrayAggAccumulator) : List ScalarValue :=
  if acc.values.isEmpty then []
  else [ScalarValue.list acc.datatype acc.values.flatten]

/-- `Accumulator::evaluate`: finalize to the typed collection of all
collected elements. -/
def ArrayAggAccumulator.evaluate (acc : ArrayAggAccumulator) : ScalarValue :=
  ScalarValue.list acc.datatype acc.values.flatten

/-! ## The checkpoint codec
(`impl SerializableAccumulator for ArrayAggAccumulator`,
src/crates/core/src/accumulators/serializable_accumulator.rs lines 19-67). -/

namespace SerializableAccumulator

/-- `SerializableAccumulator::serialize` (lines 20-29): extract the state,
map it through the self-describing converter and render the blob. -/
def serialize (acc : ArrayAggAccumulator) : Outcome String :=
  Outcome.ok (encodeState acc.state)

/-- The `filter_map` of `deserialize` (lines 52-62): keep only `List`
scalars, extracting their child element arrays. -/
def listElements : ScalarValue → Option (List ScalarValue)
  | ScalarValue.list _ vs => some vs
  | _ => none

/-- `SerializableAccumulator::deserialize` (lines 31-66): parse the blob
(`unwrap` on the parse result, hence a panic on a malformed blob), infer the
element datatype from the first decoded element — erroring when it is not a
`List` scalar — build a fresh operator and seed it through `merge_batch`
with the child arrays of every `List` element. -/
def deserialize (bytes : String) : Outcome ArrayAggAccumulator :=
  match decodeState bytes with
  | Except.error e => Outcome.panic ("called unwrap on a parse failure: " ++ e)
  | Except.ok state =>
      match state with
      | ScalarValue.list t _ :: _ =>
          let acc := ArrayAggAccumulator.try_new t
          let arrays := state.filterMap listElements
          Outcome.ok (acc.merge_batch arrays)
      | _ => Outcome.err (DataFusionError.internalErr
          "Invalid state for ArrayAggAccumulator")

end SerializableAccumulator

/-! ## The broker sink writer
(`TopicWriter` / `KafkaSink`,
src/crates/core/src/datasource/kafka/topic_writer.rs). -/

/-- A record batch, one encoded self-describing record per row
(the payload side of `arrow::json::LineDelimitedWriter` is kept abstract as
the list of per-row records; `num_rows` is their count). -/
structure RecordBatch where
  rows : List String
  deriving DecidableEq, Repr

/-- The newline-delimited payload the sink builds for one batch. -/
def encodeBatch (b : RecordBatch) : String :=
  String.join (b.rows.map (fun r => r ++ "\n"))

/-- Kafka write-side configuration: destination topic and output schema
(column names suffice for this model). -/
structure KafkaWriteConfig where
  topic : String
  schema : List String
  deriving DecidableEq, Repr

/-- Physical plans, as far as the writer manipulates them: some opaque
input plan, or the `DataSinkExec` wrapping built by `insert_into`. -/
inductive ExecutionPlan where
  | opaque_plan : Nat → ExecutionPlan
  | dataSinkExec : ExecutionPlan → List String → ExecutionPlan
  deriving DecidableEq, Repr

/-- Planner expressions are never inspected by the writer. -/
inductive Expr where
  | expr : Nat → Expr
  deriving DecidableEq, Repr

/-- Session state is never inspected by the writer. -/
structure SessionState where
  id : Nat
  deriving DecidableEq, Repr

/-- `TopicWriter` wraps the write configuration. -/
structure TopicWriter where
  config : KafkaWriteConfig
  deriving DecidableEq, Repr

/-- `TopicWriter::scan` (lines 50-58): always
`not_impl_err!("Reading not implemented for TopicWriter please use TopicReader")`. -/
def TopicWriter.scan (_w : TopicWriter) (_state : SessionState)
    (_projection : Option (List Nat)) (_filters : List Expr)
    (_limit : Option Nat) : Except DataFusionError ExecutionPlan :=
  Except.error (DataFusionError.notImplemented
    "Reading not implemented for TopicWriter please use TopicReader")

/-- `TopicWriter::insert_into` (lines 60-77): reject `overwrite` with
`not_impl_err!`, otherwise wrap the input in a `DataSinkExec`. -/
def TopicWriter.insert_into (w : TopicWriter) (_state : SessionState)
    (input : ExecutionPlan) (overwrite : Bool) :
    Except DataFusionError ExecutionPlan :=
  if overwrite then
    Except.error (DataFusionError.notImplemented
      "Overwrite not implemented for TopicWriter")
  else
    Except.ok (ExecutionPlan.dataSinkExec input w.config.schema)

/-- The loop of `KafkaSink::write_all` (lines 102-138): pull stream items in
order; a stream error is propagated by `?`; an empty batch is counted and
skipped; a nonempty batch is encoded and published, `expect` panicking on a
delivery failure. Besides the row count the model returns the ordered list
of payloads actually handed to the producer. `send` models
`producer.send(..).await`: `true` for a delivered message. -/
def writeAllGo (send : String → Bool) :
    List (Except DataFusionError RecordBatch) → Nat → List String →
    Outcome (Nat × List String)
  | [], rowCount, sent => Outcome.ok (rowCount, sent)
  | Except.error e :: _, _, _ => Outcome.err e
  | Except.ok b :: rest, rowCount, sent =>
      let rowCount' := rowCount + b.rows.length
      if b.rows.length > 0 then
        let payload := encodeBatch b
        if send payload then writeAllGo send rest rowCount' (sent ++ [payload])
        else Outcome.panic "Message not delivered"
      else writeAllGo send rest rowCount' sent

/-- `KafkaSink::write_all`: run the loop from zero rows and no messages. -/
def write_all (send : String → Bool)
    (data : List (Except DataFusionError RecordBatch)) :
    Outcome (Nat × List String) :=
  writeAllGo send data 0 []

/-- The first character of `l`, when there is one, is not a decimal digit. -/
def headNotDigit : List Char → Prop
  | [] => True
  | c :: _ => decDigit c = none

/-! ## Round-trip lemmas for the self-describing encoding -/

theorem decDigit_digitChar (d : Nat) (h : d < 10) :
    decDigit (Nat.digitChar d) = some d := by
  interval_cases d <;> decide

theorem digitChar_ne_minus (d : Nat) (h : d < 10) :
    Nat.digitChar d ≠ '-' := by
  interval_cases d <;> decide

theorem readDigits_encode (ds : List Nat) (rest : List Char)
    (h : ∀ d ∈ ds, d < 10) (hrest : headNotDigit rest) :
    readDigits (ds.map Nat.digitChar ++ rest) = (ds, rest) := by
  induction ds with
  | nil =>
      simp only [List.map_nil, List.nil_append]
      cases rest with
      | nil => rfl
      | cons c cs =>
          simp only [headNotDigit] at hrest
          simp [readDigits, hrest]
  | cons d ds ih =>
      have hd : d < 10 := h d (by simp)
      simp only [List.map_cons, List.cons_append, readDigits,
        decDigit_digitChar d hd, List.append_eq]
      rw [ih (fun x hx => h x (by simp [hx]))]

theorem headNotDigit_semi (rest : List Char) : headNotDigit (';' :: rest) := by
  simp only [headNotDigit]
  decide

theorem parseInt_encodeNat (n : Nat) (rest : List Char) :
    parseInt (encodeNat n ++ ';' :: rest) = ((n : Int), ';' :: rest) := by
  have hlt : ∀ d ∈ Nat.digits 10 n, d < 10 :=
    fun d hd => Nat.digits_lt_base (by norm_num) hd
  have hrd := readDigits_encode (Nat.digits 10 n) (';' :: rest) hlt
    (headNotDigit_semi rest)
  unfold encodeNat
  cases hD : Nat.digits 10 n with
  | nil =>
      have hn : n = 0 := (Nat.digits_eq_nil_iff_eq_zero).mp hD
      rw [hD] at hrd
      simp only [List.map_nil, List.nil_append] at hrd ⊢
      simp [parseInt, hrd, hn, Nat.ofDigits]
  | cons d ds =>
      have hd : d < 10 := by
        rw [hD] at hlt
        exact hlt d (by simp)
      rw [hD] at hrd
      simp only [List.map_cons, List.cons_append] at hrd ⊢
      rw [parseInt, if_neg (digitChar_ne_minus d hd)]
      simp only [hrd]
      have : Nat.ofDigits 10 (d :: ds) = n := by
        rw [← hD]
        exact Nat.ofDigits_digits 10 n
      simp [this]

theorem parseInt_encodeInt (i : Int) (rest : List Char) :
    parseInt (encodeInt i ++ ';' :: rest) = (i, ';' :: rest) := by
  cases i with
  | ofNat n => exact parseInt_encodeNat n rest
  | negSucc n =>
      have hlt : ∀ d ∈ Nat.digits 10 (n + 1), d < 10 :=
        fun d hd => Nat.digits_lt_base (by norm_num) hd
      have hrd := readDigits_encode (Nat.digits 10 (n + 1)) (';' :: rest) hlt
        (headNotDigit_semi rest)
      simp only [encodeInt, encodeNat, List.cons_append]
      rw [parseInt, if_pos rfl]
      simp only [hrd, List.append_eq]
      rw [Nat.ofDigits_digits, Int.negSucc_eq]
      push_cast
      ring_nf

theorem parseText_escapeChars (s : List Char) (rest : List Char) :
    parseText (escapeChars s ++ ';' :: rest) = Except.ok (s, rest) := by
  induction s with
  | nil =>
      rw [show escapeChars [] ++ ';' :: rest = ';' :: rest by simp [escapeChars]]
      rw [parseText.eq_def]
      simp +decide
  | cons c cs ih =>
      by_cases hc : c = ';' ∨ c = '\\'
      · have hesc : escapeChars (c :: cs) = '\\' :: c :: escapeChars cs := by
          simp [escapeChars, hc]
        rw [hesc, List.cons_append, List.cons_append, parseText.eq_def]
        simp +decide [ih]
      · push_neg at hc
        have hesc : escapeChars (c :: cs) = c :: escapeChars cs := by
          simp [escapeChars, hc.1, hc.2]
        rw [hesc, List.cons_append, parseText.eq_def]
        simp [hc.1, hc.2, ih]

theorem parseType_encodeType (t : DataType) (rest : List Char) :
    parseType (encodeType t ++ rest) = Except.ok (t, rest) := by
  induction t with
  | int32 => simp [encodeType, parseType]
  | utf8 => simp [encodeType, parseType]
  | list t ih => simp [encodeType, parseType, ih]

theorem stringMk_data (s : String) : String.mk s.data = s := rfl

theorem one_le_fuelValue (v : ScalarValue) : 1 ≤ fuelValue v := by
  cases v <;> simp [fuelValue]

theorem one_le_fuelList (vs : List ScalarValue) : 1 ≤ fuelList vs := by
  cases vs <;> simp [fuelList]

theorem encodeValue_head (v : ScalarValue) :
    ∃ c t0, encodeValue v = c :: t0 ∧ c ≠ ']' := by
  cases v with
  | int32 o =>
      cases o with
      | none => exact ⟨'I', ['n'], by simp [encodeValue], by decide⟩
      | some i =>
          exact ⟨'I', 'v' :: (encodeInt i ++ [';']), by simp [encodeValue],
            by decide⟩
  | utf8 o =>
      cases o with
      | none => exact ⟨'U', ['n'], by simp [encodeValue], by decide⟩
      | some s =>
          exact ⟨'U', 'v' :: (escapeChars s.data ++ [';']),
            by simp [encodeValue], by decide⟩
  | list t vs =>
      exact ⟨'L', encodeType t ++ '[' :: (encodeValueList vs ++ [']']),
        by simp [encodeValue], by decide⟩

theorem parse_encode (fuel : Nat) :
    (∀ (v : ScalarValue) (rest : List Char), fuelValue v ≤ fuel →
        parseValue fuel (encodeValue v ++ rest) = Except.ok (v, rest)) ∧
    (∀ (vs : List ScalarValue) (rest : List Char), fuelList vs ≤ fuel →
        parseValueList fuel (encodeValueList vs ++ ']' :: rest) =
          Except.ok (vs, rest)) := by
  induction fuel with
  | zero =>
      constructor
      · intro v rest h
        exact absurd h (by have := one_le_fuelValue v; omega)
      · intro vs rest h
        exact absurd h (by have := one_le_fuelList vs; omega)
  | succ fuel ih =>
      constructor
      · intro v rest h
        cases v with
        | int32 o =>
            cases o with
            | none =>
                rw [show encodeValue (ScalarValue.int32 none) ++ rest =
                  'I' :: 'n' :: rest by simp [encodeValue]]
                rw [parseValue.eq_def]
                simp
            | some i =>
                rw [show encodeValue (ScalarValue.int32 (some i)) ++ rest =
                  'I' :: 'v' :: (encodeInt i ++ ';' :: rest) by
                    simp [encodeValue]]
                rw [parseValue.eq_def]
                simp [parseInt_encodeInt]
        | utf8 o =>
            cases o with
            | none =>
                rw [show encodeValue (ScalarValue.utf8 none) ++ rest =
                  'U' :: 'n' :: rest by simp [encodeValue]]
                rw [parseValue.eq_def]
                simp
            | some s =>
                rw [show encodeValue (ScalarValue.utf8 (some s)) ++ rest =
                  'U' :: 'v' :: (escapeChars s.data ++ ';' :: rest) by
                    simp [encodeValue]]
                rw [parseValue.eq_def]
                simp [parseText_escapeChars, stringMk_data]
        | list t vs =>
            have hvs : fuelList vs ≤ fuel := by
              simp only [fuelValue] at h
              omega
            rw [show encodeValue (ScalarValue.list t vs) ++ rest =
              'L' :: (encodeType t ++
                ('[' :: (encodeValueList vs ++ ']' :: rest))) by
                simp [encodeValue]]
            rw [parseValue.eq_def]
            simp [parseType_encodeType, ih.2 vs rest hvs]
      · intro vs rest h
        cases vs with
        | nil =>
            rw [show encodeValueList [] ++ ']' :: rest = ']' :: rest by
              simp [encodeValueList]]
            rw [parseValueList.eq_def]
            simp
        | cons v vs' =>
            have hv : fuelValue v ≤ fuel := by
              simp only [fuelList] at h
              omega
            have hvs : fuelList vs' ≤ fuel := by
              simp only [fuelList] at h
              omega
            obtain ⟨c, t0, hct, hc⟩ := encodeValue_head v
            rw [show encodeValueList (v :: vs') ++ ']' :: rest =
              c :: (t0 ++ (encodeValueList vs' ++ ']' :: rest)) by
                simp [encodeValueList, hct]]
            rw [parseValueList.eq_def]
            simp only [hc]
            rw [show c :: (t0 ++ (encodeValueList vs' ++ ']' :: rest)) =
              encodeValue v ++ (encodeValueList vs' ++ ']' :: rest) by
                rw [hct]
                simp]
            rw [ih.1 v _ hv]
            simp [ih.2 vs' rest hvs]

theorem encodeValue_length_pos (v : ScalarValue) :
    1 ≤ (encodeValue v).length := by
  obtain ⟨c, t0, hct, _⟩ := encodeValue_head v
  simp [hct]

theorem fuel_le_length (n : Nat) :
    (∀ v : ScalarValue, sizeOf v ≤ n →
        fuelValue v ≤ (encodeValue v).length) ∧
    (∀ vs : List ScalarValue, sizeOf vs ≤ n →
        fuelList vs ≤ (encodeValueList vs).length + 1) := by
  induction n with
  | zero =>
      constructor
      · intro v hv
        exact absurd hv (by cases v <;> simp)
      · intro vs hvs
        exact absurd hvs (by cases vs <;> simp)
  | succ n ih =>
      constructor
      · intro v hv
        cases v with
        | int32 o => cases o <;> simp [fuelValue, encodeValue]
        | utf8 o => cases o <;> simp [fuelValue, encodeValue]
        | list t vs =>
            have hsz : sizeOf vs ≤ n := by
              simp only [ScalarValue.list.sizeOf_spec] at hv
              have : 0 < sizeOf t := by cases t <;> simp
              omega
            have hb := ih.2 vs hsz
            simp only [fuelValue, encodeValue, List.length_cons,
              List.length_append]
            simp at hb ⊢
            omega
      · intro vs hvs
        cases vs with
        | nil => simp [fuelList, encodeValueList]
        | cons v vs' =>
            have h1 : sizeOf v ≤ n := by simp at hvs; omega
            have h2 : sizeOf vs' ≤ n := by simp at hvs; omega
            have hb1 := ih.1 v h1
            have hb2 := ih.2 vs' h2
            have hp := encodeValue_length_pos v
            simp only [fuelList, encodeValueList, List.length_append]
            omega

theorem decodeState_encodeState (l : List ScalarValue) :
    decodeState (encodeState l) = Except.ok l := by
  have hb := (fuel_le_length (sizeOf l)).2 l (le_refl _)
  have hp := (parse_encode ((encodeValueList l ++ [']']).length + 1)).2 l []
    (by simp only [List.length_append, List.length_cons, List.length_nil]
        omega)
  simp only [List.length_append, List.length_cons, List.length_nil] at hp
  simp [decodeState, encodeState, hp]

theorem decodeValue_encodeValue (v : ScalarValue) :
    decodeValue (String.mk (encodeValue v)) = Except.ok v := by
  have hb := (fuel_le_length (sizeOf v)).1 v (le_refl _)
  have hp := (parse_encode ((encodeValue v).length + 1)).1 v [] (by omega)
  rw [List.append_nil] at hp
  simp [decodeValue, hp]

/-! ## Behaviour of the codec on decoded states -/

theorem state_of_ne_nil (O : ArrayAggAccumulator) (h : O.values ≠ []) :
    O.state = [ScalarValue.list O.datatype O.values.flatten] := by
  simp [ArrayAggAccumulator.state, h]

theorem deserialize_of_decoded_list (bytes : String) (t : DataType)
    (vs rest : List ScalarValue)
    (h : decodeState bytes = Except.ok (ScalarValue.list t vs :: rest)) :
    SerializableAccumulator.deserialize bytes =
      Outcome.ok ((ArrayAggAccumulator.try_new t).merge_batch
        ((ScalarValue.list t vs :: rest).filterMap
          SerializableAccumulator.listElements)) := by
  simp [SerializableAccumulator.deserialize, h]

/-! ## Claim theorems for the checkpoint codec -/

/-- C1: capture/restore round-trip equivalence. For every accumulator with
non-empty state, deserializing the blob produced by `serialize` yields a
fresh accumulator seeded exclusively through `merge_batch` whose finalized
(`evaluate`) result equals the original's; in particular an operator holding
`[1, 2, 3]` restored from its blob and merged with a second operator's state
`[4]` finalizes to the collection `[1, 2, 3, 4]`. -/
theorem c1_capture_restore_roundtrip (O : ArrayAggAccumulator)
    (h : O.values ≠ []) :
    (∃ blob acc',
      SerializableAccumulator.serialize O = Outcome.ok blob ∧
      SerializableAccumulator.deserialize blob = Outcome.ok acc' ∧
      acc' = (ArrayAggAccumulator.try_new O.datatype).merge_batch
        [O.values.flatten] ∧
      acc'.evaluate = O.evaluate) ∧
    (∃ acc2,
      SerializableAccumulator.deserialize
        (encodeState ((ArrayAggAccumulator.try_new DataType.int32).update_batch
          [ScalarValue.int32 (some 1), ScalarValue.int32 (some 2),
           ScalarValue.int32 (some 3)]).state) = Outcome.ok acc2 ∧
      (acc2.merge_batch
        (((ArrayAggAccumulator.try_new DataType.int32).update_batch
          [ScalarValue.int32 (some 4)]).state.filterMap
            SerializableAccumulator.listElements)).evaluate =
        ScalarValue.list DataType.int32
          [ScalarValue.int32 (some 1), ScalarValue.int32 (some 2),
           ScalarValue.int32 (some 3), ScalarValue.int32 (some 4)]) := by
  constructor
  · have hs := state_of_ne_nil O h
    have hdec : decodeState (encodeState O.state) =
        Except.ok (ScalarValue.list O.datatype O.values.flatten :: []) := by
      rw [decodeState_encodeState, hs]
    have hdes := deserialize_of_decoded_list _ _ _ _ hdec
    refine ⟨encodeState O.state,
      (ArrayAggAccumulator.try_new O.datatype).merge_batch
        [O.values.flatten], rfl, ?_, rfl, ?_⟩
    · rw [hdes]
      simp [SerializableAccumulator.listElements]
    · simp [ArrayAggAccumulator.merge_batch, ArrayAggAccumulator.try_new,
        ArrayAggAccumulator.evaluate]
  · have hst : ((ArrayAggAccumulator.try_new DataType.int32).update_batch
        [ScalarValue.int32 (some 1), ScalarValue.int32 (some 2),
         ScalarValue.int32 (some 3)]).state =
        [ScalarValue.list DataType.int32
          [ScalarValue.int32 (some 1), ScalarValue.int32 (some 2),
           ScalarValue.int32 (some 3)]] := by
      simp [ArrayAggAccumulator.try_new, ArrayAggAccumulator.update_batch,
        ArrayAggAccumulator.state]
    have hdec := decodeState_encodeState
      [ScalarValue.list DataType.int32
        [ScalarValue.int32 (some 1), ScalarValue.int32 (some 2),
         ScalarValue.int32 (some 3)]]
    rw [hst]
    have hdes := deserialize_of_decoded_list _ _ _ _ hdec
    refine ⟨_, hdes, ?_⟩
    simp [ArrayAggAccumulator.try_new, ArrayAggAccumulator.update_batch,
      ArrayAggAccumulator.state, ArrayAggAccumulator.merge_batch,
      ArrayAggAccumulator.evaluate, SerializableAccumulator.listElements]

/-- C1 witness: the round-trip theorem applied to the concrete operator
holding `[1, 2, 3]`. -/
theorem c1_capture_restore_roundtrip_witness :
    ((ArrayAggAccumulator.try_new DataType.int32).update_batch
      [ScalarValue.int32 (some 1), ScalarValue.int32 (some 2),
       ScalarValue.int32 (some 3)]).values ≠ [] ∧
    (∃ blob acc',
      SerializableAccumulator.serialize
        ((ArrayAggAccumulator.try_new DataType.int32).update_batch
          [ScalarValue.int32 (some 1), ScalarValue.int32 (some 2),
           ScalarValue.int32 (some 3)]) = Outcome.ok blob ∧
      SerializableAccumulator.deserialize blob = Outcome.ok acc' ∧
      acc' = (ArrayAggAccumulator.try_new
        ((ArrayAggAccumulator.try_new DataType.int32).update_batch
          [ScalarValue.int32 (some 1), ScalarValue.int32 (some 2),
           ScalarValue.int32 (some 3)]).datatype).merge_batch
        [((ArrayAggAccumulator.try_new DataType.int32).update_batch
          [ScalarValue.int32 (some 1), ScalarValue.int32 (some 2),
           ScalarValue.int32 (some 3)]).values.flatten] ∧
      acc'.evaluate = ((ArrayAggAccumulator.try_new DataType.int32).update_batch
        [ScalarValue.int32 (some 1), ScalarValue.int32 (some 2),
         ScalarValue.int32 (some 3)]).evaluate) := by
  constructor
  · simp [ArrayAggAccumulator.try_new, ArrayAggAccumulator.update_batch]
  · exact (c1_capture_restore_roundtrip
      ((ArrayAggAccumulator.try_new DataType.int32).update_batch
        [ScalarValue.int32 (some 1), ScalarValue.int32 (some 2),
         ScalarValue.int32 (some 3)])
      (by simp [ArrayAggAccumulator.try_new,
        ArrayAggAccumulator.update_batch])).1

/-- C2 counterexample: on the malformed blob `"not valid"` the code panics
(the `unwrap` on the parse result) instead of returning a `DecodeError`
result: `deserialize "not valid"` is a panic and is no returned error. -/
theorem c2_malformed_blob_counterexample :
    SerializableAccumulator.deserialize "not valid" =
      Outcome.panic
        "called unwrap on a parse failure: expected a state record" ∧
    ∀ e, SerializableAccumulator.deserialize "not valid" ≠ Outcome.err e := by
  constructor
  · rfl
  · intro e he
    rw [show SerializableAccumulator.deserialize "not valid" =
      Outcome.panic
        "called unwrap on a parse failure: expected a state record"
      from rfl] at he
    exact Outcome.noConfusion he

/-- C2 amended: for every input string on which the blob parse fails, the
code panics (`unwrap` on the parse failure) rather than surfacing a
`DecodeError` result to the caller. -/
theorem c2_malformed_blob_panics (bytes : String) (e : String)
    (h : decodeState bytes = Except.error e) :
    SerializableAccumulator.deserialize bytes =
      Outcome.panic ("called unwrap on a parse failure: " ++ e) := by
  simp [SerializableAccumulator.deserialize, h]

/-- C2 amended witness: the panic on the concrete malformed blob. -/
theorem c2_malformed_blob_panics_witness :
    decodeState "not valid" = Except.error "expected a state record" ∧
    SerializableAccumulator.deserialize "not valid" =
      Outcome.panic ("called unwrap on a parse failure: " ++
        "expected a state record") := by
  exact ⟨rfl, c2_malformed_blob_panics "not valid" "expected a state record"
    rfl⟩

/-- C3: the blob captured from a freshly constructed accumulator encodes
the empty state sequence, and deserializing it returns the generic
`Internal "Invalid state for ArrayAggAccumulator"` error — not a
distinguished empty-state error (the repository's own
`test_serialize_deserialize_empty` expects the message to contain
`"Empty state"`); indeed the error is the very same one produced for a
non-list first element. -/
theorem c3_empty_state_not_distinguished :
    SerializableAccumulator.serialize
      (ArrayAggAccumulator.try_new DataType.int32) =
      Outcome.ok (encodeState []) ∧
    SerializableAccumulator.deserialize (encodeState []) =
      Outcome.err (DataFusionError.internalErr
        "Invalid state for ArrayAggAccumulator") ∧
    SerializableAccumulator.deserialize
      (encodeState [ScalarValue.int32 (some 5)]) =
      Outcome.err (DataFusionError.internalErr
        "Invalid state for ArrayAggAccumulator") := by
  refine ⟨rfl, ?_, ?_⟩
  · have hdec := decodeState_encodeState []
    simp [SerializableAccumulator.deserialize, hdec]
  · have hdec := decodeState_encodeState [ScalarValue.int32 (some 5)]
    simp [SerializableAccumulator.deserialize, hdec]

/-- C8: `deserialize` infers the reconstructed operator's element datatype
solely from the first decoded state element — whatever the later elements
are, the operator is built for the first element's datatype — and returns
the invalid-state error when that first element is not a `List` value. -/
theorem c8_first_element_inference :
    (∀ (bytes : String) (t : DataType) (vs rest : List ScalarValue),
      decodeState bytes = Except.ok (ScalarValue.list t vs :: rest) →
      ∃ acc', SerializableAccumulator.deserialize bytes = Outcome.ok acc' ∧
        acc'.datatype = t) ∧
    (∀ (bytes : String) (v : ScalarValue) (rest : List ScalarValue),
      decodeState bytes = Except.ok (v :: rest) →
      (∀ t vs, v ≠ ScalarValue.list t vs) →
      SerializableAccumulator.deserialize bytes =
        Outcome.err (DataFusionError.internalErr
          "Invalid state for ArrayAggAccumulator")) := by
  constructor
  · intro bytes t vs rest h
    refine ⟨(ArrayAggAccumulator.try_new t).merge_batch
      ((ScalarValue.list t vs :: rest).filterMap
        SerializableAccumulator.listElements),
      deserialize_of_decoded_list bytes t vs rest h, ?_⟩
    simp [ArrayAggAccumulator.try_new, ArrayAggAccumulator.merge_batch]
  · intro bytes v rest h hv
    cases v with
    | int32 o => simp [SerializableAccumulator.deserialize, h]
    | utf8 o => simp [SerializableAccumulator.deserialize, h]
    | list t vs => exact absurd rfl (hv t vs)

/-- C8 witness: the datatype comes from the first element even when a later
element has another shape, and a non-list first element is rejected. -/
theorem c8_first_element_inference_witness :
    decodeState (encodeState
      [ScalarValue.list DataType.int32 [ScalarValue.int32 (some 1)],
       ScalarValue.utf8 (some "stray")]) =
      Except.ok
        [ScalarValue.list DataType.int32 [ScalarValue.int32 (some 1)],
         ScalarValue.utf8 (some "stray")] ∧
    (∃ acc', SerializableAccumulator.deserialize (encodeState
      [ScalarValue.list DataType.int32 [ScalarValue.int32 (some 1)],
       ScalarValue.utf8 (some "stray")]) = Outcome.ok acc' ∧
      acc'.datatype = DataType.int32) ∧
    SerializableAccumulator.deserialize
      (encodeState [ScalarValue.int32 (some 5)]) =
      Outcome.err (DataFusionError.internalErr
        "Invalid state for ArrayAggAccumulator") := by
  refine ⟨decodeState_encodeState _, ?_, ?_⟩
  · exact c8_first_element_inference.1 _ DataType.int32
      [ScalarValue.int32 (some 1)] [ScalarValue.utf8 (some "stray")]
      (decodeState_encodeState _)
  · exact c8_first_element_inference.2 _ (ScalarValue.int32 (some 5)) []
      (decodeState_encodeState _)
      (fun t vs hne => ScalarValue.noConfusion hne)

/-- C9: value-level round-trip of the self-describing encoding — for every
supported scalar value, including explicit nulls, negative numbers, empty
text, text containing the record separator and nested list elements,
decoding the encoding yields the value back. -/
theorem c9_value_roundtrip (v : ScalarValue) :
    decodeValue (String.mk (encodeValue v)) = Except.ok v :=
  decodeValue_encodeValue v

/-- C9 witness: the round-trip at a value exercising null, a negative
number, empty text, text containing the record separator and nesting. -/
theorem c9_value_roundtrip_witness :
    decodeValue (String.mk (encodeValue
      (ScalarValue.list DataType.utf8
        [ScalarValue.utf8 none, ScalarValue.utf8 (some ""),
         ScalarValue.utf8 (some "a;b"),
         ScalarValue.list DataType.int32 [ScalarValue.int32 (some (-7))]]))) =
      Except.ok
        (ScalarValue.list DataType.utf8
          [ScalarValue.utf8 none, ScalarValue.utf8 (some ""),
           ScalarValue.utf8 (some "a;b"),
           ScalarValue.list DataType.int32
             [ScalarValue.int32 (some (-7))]]) :=
  c9_value_roundtrip
    (ScalarValue.list DataType.utf8
      [ScalarValue.utf8 none, ScalarValue.utf8 (some ""),
       ScalarValue.utf8 (some "a;b"),
       ScalarValue.list DataType.int32 [ScalarValue.int32 (some (-7))]])

/-- C10 (implicit): every decoded state element after the first that is not
a `List` scalar is silently dropped by the `filter_map` before the merge
step, so a blob whose later elements have a different shape than the first
is restored without error; the reconstructed operator holds exactly the
child arrays of the `List` elements. -/
theorem c10_silent_discard_of_non_list_elements :
    (∀ (bytes : String) (t : DataType) (vs rest : List ScalarValue),
      decodeState bytes = Except.ok (ScalarValue.list t vs :: rest) →
      SerializableAccumulator.deserialize bytes =
        Outcome.ok
          { datatype := t,
            values := (ScalarValue.list t vs :: rest).filterMap
              SerializableAccumulator.listElements }) ∧
    (∀ v : ScalarValue, (∀ t vs, v ≠ ScalarValue.list t vs) →
      SerializableAccumulator.listElements v = none) := by
  constructor
  · intro bytes t vs rest h
    rw [deserialize_of_decoded_list bytes t vs rest h]
    simp [ArrayAggAccumulator.try_new, ArrayAggAccumulator.merge_batch]
  · intro v hv
    cases v with
    | int32 o => simp [SerializableAccumulator.listElements]
    | utf8 o => simp [SerializableAccumulator.listElements]
    | list t vs => exact absurd rfl (hv t vs)

/-- C10 witness: a blob whose second element is an `Int32` scalar (not a
`List`) restores without error, the stray element silently dropped. -/
theorem c10_silent_discard_witness :
    decodeState (encodeState
      [ScalarValue.list DataType.int32 [ScalarValue.int32 (some 1)],
       ScalarValue.int32 (some 7)]) =
      Except.ok
        [ScalarValue.list DataType.int32 [ScalarValue.int32 (some 1)],
         ScalarValue.int32 (some 7)] ∧
    SerializableAccumulator.deserialize (encodeState
      [ScalarValue.list DataType.int32 [ScalarValue.int32 (some 1)],
       ScalarValue.int32 (some 7)]) =
      Outcome.ok
        { datatype := DataType.int32,
          values := [[ScalarValue.int32 (some 1)]] } := by
  constructor
  · exact decodeState_encodeState _
  · have := c10_silent_discard_of_non_list_elements.1 _ DataType.int32
      [ScalarValue.int32 (some 1)] [ScalarValue.int32 (some 7)]
      (decodeState_encodeState _)
    rw [this]
    simp [SerializableAccumulator.listElements]

/-! ## Claim theorems for the broker sink writer -/

theorem writeAllGo_all_empty (send : String → Bool)
    (items : List (Except DataFusionError RecordBatch))
    (h : ∀ x ∈ items, x = Except.ok ({ rows := [] } : RecordBatch)) :
    ∀ (n : Nat) (msgs : List String),
      writeAllGo send items n msgs = Outcome.ok (n, msgs) := by
  induction items with
  | nil => intro n msgs; rfl
  | cons x rest ih =>
      intro n msgs
      have hx : x = Except.ok ({ rows := [] } : RecordBatch) :=
        h x (by simp)
      subst hx
      rw [writeAllGo]
      simp only [List.length_nil]
      exact ih (fun y hy => h y (by simp [hy])) n msgs

/-- C4 counterexample: when the broker rejects the publish of a nonempty
batch, `write_all` panics (`expect("Message not delivered")`) — it does not
surface any returned error to the caller. -/
theorem c4_delivery_failure_counterexample :
    write_all (fun _ => false)
      [Except.ok ({ rows := ["row1"] } : RecordBatch)] =
      Outcome.panic "Message not delivered" ∧
    ∀ e, write_all (fun _ => false)
      [Except.ok ({ rows := ["row1"] } : RecordBatch)] ≠ Outcome.err e := by
  constructor
  · rfl
  · intro e he
    rw [show write_all (fun _ => false)
      [Except.ok ({ rows := ["row1"] } : RecordBatch)] =
      Outcome.panic "Message not delivered" from rfl] at he
    exact Outcome.noConfusion he

/-- C4 amended: whenever the publish of a nonempty batch fails, the write
loop panics with `"Message not delivered"`, terminating the operation
instead of returning a typed delivery error. -/
theorem c4_delivery_failure_panics (send : String → Bool) (b : RecordBatch)
    (rest : List (Except DataFusionError RecordBatch)) (n : Nat)
    (msgs : List String) (hb : b.rows ≠ [])
    (hsend : send (encodeBatch b) = false) :
    writeAllGo send (Except.ok b :: rest) n msgs =
      Outcome.panic "Message not delivered" := by
  have hlen : 0 < b.rows.length := List.length_pos.mpr hb
  rw [writeAllGo]
  simp [hlen, hsend]

/-- C4 amended witness: the panic at a concrete failing publish. -/
theorem c4_delivery_failure_panics_witness :
    (["row1"] : List String) ≠ [] ∧
    writeAllGo (fun _ => false)
      [Except.ok ({ rows := ["row1"] } : RecordBatch)] 0 [] =
      Outcome.panic "Message not delivered" := by
  exact ⟨by simp, c4_delivery_failure_panics (fun _ => false)
    { rows := ["row1"] } [] 0 [] (by simp) rfl⟩

/-- C5: a stream consisting only of empty batches publishes zero outbound
messages and returns row count 0. -/
theorem c5_skip_empty_batches (send : String → Bool)
    (items : List (Except DataFusionError RecordBatch))
    (h : ∀ x ∈ items, x = Except.ok ({ rows := [] } : RecordBatch)) :
    write_all send items = Outcome.ok (0, []) :=
  writeAllGo_all_empty send items h 0 []

/-- C5 witness: two empty batches → row count 0, no outbound message. -/
theorem c5_skip_empty_batches_witness :
    write_all (fun _ => true)
      [Except.ok ({ rows := [] } : RecordBatch),
       Except.ok ({ rows := [] } : RecordBatch)] = Outcome.ok (0, []) :=
  c5_skip_empty_batches (fun _ => true)
    [Except.ok { rows := [] }, Except.ok { rows := [] }]
    (by intro x hx; simp at hx; exact hx)

theorem writeAllGo_ok_batches (send : String → Bool)
    (hsend : ∀ p, send p = true) (batches : List RecordBatch) :
    ∀ (n : Nat) (msgs : List String),
      writeAllGo send (batches.map Except.ok) n msgs =
        Outcome.ok (n + (batches.map (fun b => b.rows.length)).sum,
          msgs ++ (batches.filter
            (fun b => b.rows.length > 0)).map encodeBatch) := by
  induction batches with
  | nil => intro n msgs; simp [writeAllGo]
  | cons b rest ih =>
      intro n msgs
      by_cases hb : 0 < b.rows.length
      · rw [List.map_cons, writeAllGo]
        simp only [hb, if_pos, hsend (encodeBatch b), if_true]
        rw [ih (n + b.rows.length) (msgs ++ [encodeBatch b])]
        simp [hb, List.filter_cons]
        omega
      · rw [List.map_cons, writeAllGo]
        simp only [hb, if_neg]
        rw [ih (n + b.rows.length) msgs]
        have hb0 : b.rows.length = 0 := by omega
        simp [hb0, List.filter_cons, hb]

/-- C6: for a finite stream of batches (no stream errors, broker accepting
every publish), `write_all` returns the sum of the row counts of all
batches and hands the producer exactly one payload per nonempty batch, in
stream order. -/
theorem c6_row_accounting_and_order (send : String → Bool)
    (batches : List RecordBatch) (hsend : ∀ p, send p = true) :
    write_all send (batches.map Except.ok) =
      Outcome.ok ((batches.map (fun b => b.rows.length)).sum,
        (batches.filter (fun b => b.rows.length > 0)).map encodeBatch) := by
  rw [write_all, writeAllGo_ok_batches send hsend batches 0 []]
  simp

/-- C6 witness: a 3-row batch followed by a 2-row batch → row count 5 and
exactly the two payloads, in that order. -/
theorem c6_row_accounting_and_order_witness :
    write_all (fun _ => true)
      ([({ rows := ["a", "b", "c"] } : RecordBatch),
        ({ rows := ["d", "e"] } : RecordBatch)].map Except.ok) =
      Outcome.ok (5,
        [encodeBatch { rows := ["a", "b", "c"] },
         encodeBatch { rows := ["d", "e"] }]) := by
  have := c6_row_accounting_and_order (fun _ => true)
    [{ rows := ["a", "b", "c"] }, { rows := ["d", "e"] }] (fun p => rfl)
  rw [this]
  rfl

/-- C7: a read-scan of the write-only destination and an overwrite-insert
both fail immediately with the not-implemented error, for every input, and
nothing else is returned. -/
theorem c7_unsupported_operations :
    (∀ (w : TopicWriter) (s : SessionState) (proj : Option (List Nat))
        (filters : List Expr) (limit : Option Nat),
      TopicWriter.scan w s proj filters limit =
        Except.error (DataFusionError.notImplemented
          "Reading not implemented for TopicWriter please use TopicReader")) ∧
    (∀ (w : TopicWriter) (s : SessionState) (input : ExecutionPlan),
      TopicWriter.insert_into w s input true =
        Except.error (DataFusionError.notImplemented
          "Overwrite not implemented for TopicWriter")) := by
  constructor
  · intro w s proj filters limit
    rfl
  · intro w s input
    rfl

end Denormalized
